import Mathlib

/-!
Shallow embedding of `src/backend.rs` (the `SkiaBackend` drawing adapter of
plotters-skia): the adapter translates abstract plotters drawing calls into
skia canvas primitives.  The borrowed skia canvas is modelled as the trace of
primitive calls the adapter issues to it, in order; skia `Paint` objects are
records carrying exactly the fields the adapter configures; machine integers
are `Nat`/`Int` with the wrapping casts explicit; `f64`/`f32` values are
modelled as exact rationals.
-/

namespace PlottersSkia

/-- `plotters_backend::BackendColor`: 8-bit r/g/b channels plus an `f64`
alpha (modelled as a rational). -/
structure BackendColor where
  alpha : ℚ
  rgb : Nat × Nat × Nat
deriving DecidableEq

/-- The data a `plotters_backend::BackendStyle` exposes to the backend:
`color()` and `stroke_width()` (a `u32`). -/
structure BackendStyleData where
  color : BackendColor
  stroke_width : Nat
deriving DecidableEq

/-- `skia_safe::Color`: an ARGB quadruple of 8-bit channels. -/
structure Color where
  a : Nat
  r : Nat
  g : Nat
  b : Nat
deriving DecidableEq

/-- `Color::from_argb(a, r, g, b)`: the arguments are already `u8` values. -/
def Color.from_argb (a r g b : Nat) : Color := ⟨a, r, g, b⟩

/-- A `skia_safe::BlendMode` value, kept abstract (the adapter only stores
and forwards it); concrete values are written `⟨k⟩`. -/
structure BlendMode where
  code : Nat
deriving DecidableEq

/-- `skia_safe::PaintStyle`. -/
inductive PaintStyle where
  | Fill
  | Stroke
  | StrokeAndFill
deriving DecidableEq

/-- The fields of a `skia_safe::Paint` the adapter reads or writes.
`blendMode = none` stands for the default (source-over) compositing a fresh
paint carries before `set_blend_mode` is called on it. -/
structure Paint where
  color : Color
  strokeWidth : ℚ
  antiAlias : Bool
  style : PaintStyle
  blendMode : Option BlendMode
deriving DecidableEq

/-- `Paint::default()`: opaque black, hairline stroke width 0, anti-aliasing
off, fill style, default compositing. -/
def Paint.default : Paint := ⟨⟨255, 0, 0, 0⟩, 0, false, PaintStyle.Fill, none⟩

/-- `Paint::set_color`. -/
def Paint.set_color (p : Paint) (c : Color) : Paint := { p with color := c }

/-- `Paint::set_blend_mode`. -/
def Paint.set_blend_mode (p : Paint) (m : BlendMode) : Paint :=
  { p with blendMode := some m }

/-- `Paint::set_stroke_width` (the width is an `f32`, modelled as ℚ). -/
def Paint.set_stroke_width (p : Paint) (w : ℚ) : Paint :=
  { p with strokeWidth := w }

/-- `Paint::set_anti_alias`. -/
def Paint.set_anti_alias (p : Paint) (b : Bool) : Paint := { p with antiAlias := b }

/-- `Paint::set_style`. -/
def Paint.set_style (p : Paint) (s : PaintStyle) : Paint := { p with style := s }

/-- One verb of a `skia_safe::Path` as the adapter builds it. -/
inductive PathVerb where
  | moveTo (p : Int × Int)
  | lineTo (p : Int × Int)
deriving DecidableEq

/-- `skia_safe::Rect::new(left, top, right, bottom)` (f32 fields as ℚ). -/
structure Rect where
  left : ℚ
  top : ℚ
  right : ℚ
  bottom : ℚ
deriving DecidableEq

/-- `skia_safe::ColorType` (only the variant the adapter uses). -/
inductive ColorType where
  | RGBA8888
deriving DecidableEq

/-- `skia_safe::AlphaType` variants. -/
inductive AlphaType where
  | Opaque
  | Premul
  | Unpremul
deriving DecidableEq

/-- `skia_safe::ImageInfo`: dimensions are `i32`. -/
structure ImageInfo where
  width : Int
  height : Int
  colorType : ColorType
  alphaType : AlphaType
deriving DecidableEq

/-- `ImageInfo::new(dimensions, color_type, alpha_type, None)`. -/
def ImageInfo.new (dims : Int × Int) (ct : ColorType) (alphaType : AlphaType) :
    ImageInfo :=
  ⟨dims.1, dims.2, ct, alphaType⟩

/-- An image produced by skia's raster-from-data facility: it wraps the
declared info, the caller's bytes and the declared row stride. -/
structure SkImage where
  info : ImageInfo
  data : List Nat
  rowBytes : Nat
deriving DecidableEq

/-- One primitive call issued to the borrowed `skia_safe::Canvas`. -/
inductive CanvasOp where
  | drawPoint (p : Int × Int) (paint : Paint)
  | drawLine (p q : Int × Int) (paint : Paint)
  | drawRect (rect : Rect) (paint : Paint)
  | drawPath (path : List PathVerb) (paint : Paint)
  | drawCircle (center : Int × Int) (radius : ℚ) (paint : Paint)
  | drawImage (img : SkImage) (pos : Int × Int)
deriving DecidableEq

/-- Rust `n as i32` on a `u32` value: reinterpret the low 32 bits as signed. -/
def u32AsI32 (n : Nat) : Int :=
  if n % 2 ^ 32 < 2 ^ 31 then ((n % 2 ^ 32 : Nat) : Int)
  else ((n % 2 ^ 32 : Nat) : Int) - 2 ^ 32

/-- Rust `x as u8` on a float: truncate toward zero and saturate to
`[0, 255]` (over ℚ; a negative value truncates and clamps to 0). -/
def f64AsU8 (x : ℚ) : Nat :=
  if x < 0 then 0 else min 255 (Int.toNat ⌊x⌋)

/-- Round a rational to the nearest integer, ties to even. -/
def roundNearestEven (y : ℚ) : Int :=
  if y - ⌊y⌋ < 1 / 2 then ⌊y⌋
  else if 1 / 2 < y - ⌊y⌋ then ⌊y⌋ + 1
  else if ⌊y⌋ % 2 = 0 then ⌊y⌋ else ⌊y⌋ + 1

/-- IEEE-754 binary64 rounding (round to nearest, ties to even) of an exact
real value, modelled over ℚ: the significand is rounded to 53 bits in the
value's own binade.  Exponent overflow and subnormal underflow are not
modelled: the products this file rounds lie in `[0, 255]`, where binary64
behaves exactly like this fixed-53-bit model (a product tiny enough to be
subnormal truncates to an alpha of 0 either way). -/
def f64Round (x : ℚ) : ℚ :=
  if x = 0 then 0
  else if 0 < x then
    (roundNearestEven (x / 2 ^ (Int.log 2 x - 52)) : ℚ) * 2 ^ (Int.log 2 x - 52)
  else
    -((roundNearestEven (-x / 2 ^ (Int.log 2 (-x) - 52)) : ℚ) *
      2 ^ (Int.log 2 (-x) - 52))

/-- `SkiaError` (`src/backend.rs`). -/
inductive SkiaError where
  | Typeface
  | ImageFromRaster
deriving DecidableEq

/-- `plotters_backend::DrawingErrorKind` as the adapter produces it. -/
inductive DrawingErrorKind where
  | DrawingError (e : SkiaError)
deriving DecidableEq

/-- The `SkiaBackend` adapter: stored dimensions, the optional blend mode,
and the borrowed canvas modelled as the trace of primitive calls issued so
far. -/
structure SkiaBackend where
  width : Nat
  height : Nat
  blendMode : Option BlendMode
  canvas : List CanvasOp
deriving DecidableEq

/-- `SkiaBackend::new(canvas, w, h)`: the canvas trace starts empty. -/
def SkiaBackend.new (w h : Nat) : SkiaBackend := ⟨w, h, none, []⟩

/-- `SkiaBackend::set_blend_mode`. -/
def SkiaBackend.set_blend_mode (st : SkiaBackend) (m : Option BlendMode) :
    SkiaBackend :=
  { st with blendMode := m }

/-- Issuing one primitive call to the borrowed canvas appends it to the
trace. -/
def SkiaBackend.emit (st : SkiaBackend) (op : CanvasOp) : SkiaBackend :=
  { st with canvas := st.canvas ++ [op] }

/-- `SkiaBackend::paint(color)`: derive the 8-bit alpha from the float alpha
(`(color.alpha * 255.0) as u8`: the f64 product rounds to nearest even
before the truncating saturating cast), build the ARGB color, start from
`Paint::default()`, set the color, and set the adapter's blend mode when one
is configured. -/
def SkiaBackend.paint (st : SkiaBackend) (color : BackendColor) : Paint :=
  let alpha := f64AsU8 (f64Round (color.alpha * 255))
  let c := Color.from_argb alpha color.rgb.1 color.rgb.2.1 color.rgb.2.2
  let p := Paint.default.set_color c
  match st.blendMode with
  | some mode => p.set_blend_mode mode
  | none => p

/-- The path the `draw_path_` loop builds from the input points: move to the
first point, then a line-to for each subsequent point; empty input yields the
empty path. -/
def buildPath (points : List (Int × Int)) : List PathVerb :=
  match points with
  | [] => []
  | point :: rest => PathVerb.moveTo point :: rest.map PathVerb.lineTo

/-- `SkiaBackend::draw_path_(path, style, filled)`. -/
def SkiaBackend.draw_path_ (st : SkiaBackend) (path : List (Int × Int))
    (style : BackendStyleData) (filled : Bool) : SkiaBackend :=
  let paint := ((st.paint style.color).set_stroke_width
    (style.stroke_width : ℚ)).set_anti_alias true
  let paint := if filled then paint.set_style PaintStyle.Fill
    else paint.set_style PaintStyle.Stroke
  st.emit (CanvasOp.drawPath (buildPath path) paint)

/-- `DrawingBackend::get_size`. -/
def SkiaBackend.get_size (st : SkiaBackend) : Nat × Nat := (st.width, st.height)

/-- `DrawingBackend::ensure_prepared`. -/
def SkiaBackend.ensure_prepared (st : SkiaBackend) :
    Except DrawingErrorKind SkiaBackend :=
  .ok st

/-- `DrawingBackend::present`. -/
def SkiaBackend.present (st : SkiaBackend) : Except DrawingErrorKind SkiaBackend :=
  .ok st

/-- `DrawingBackend::draw_pixel`. -/
def SkiaBackend.draw_pixel (st : SkiaBackend) (point : Int × Int)
    (color : BackendColor) : Except DrawingErrorKind SkiaBackend :=
  .ok (st.emit (CanvasOp.drawPoint point (st.paint color)))

/-- `DrawingBackend::draw_line`. -/
def SkiaBackend.draw_line (st : SkiaBackend) (p q : Int × Int)
    (style : BackendStyleData) : Except DrawingErrorKind SkiaBackend :=
  let paint := ((st.paint style.color).set_stroke_width
    (style.stroke_width : ℚ)).set_anti_alias true
  .ok (st.emit (CanvasOp.drawLine p q paint))

/-- `DrawingBackend::draw_rect`. -/
def SkiaBackend.draw_rect (st : SkiaBackend) (upper_left bottom_right : Int × Int)
    (style : BackendStyleData) (fill : Bool) : Except DrawingErrorKind SkiaBackend :=
  let paint := ((st.paint style.color).set_stroke_width
    (style.stroke_width : ℚ)).set_anti_alias true
  let paint := if fill then paint.set_style PaintStyle.Fill
    else paint.set_style PaintStyle.Stroke
  let rect : Rect := ⟨(upper_left.1 : ℚ), (upper_left.2 : ℚ),
    (bottom_right.1 : ℚ), (bottom_right.2 : ℚ)⟩
  .ok (st.emit (CanvasOp.drawRect rect paint))

/-- `DrawingBackend::draw_path`: stroke the polyline. -/
def SkiaBackend.draw_path (st : SkiaBackend) (path : List (Int × Int))
    (style : BackendStyleData) : Except DrawingErrorKind SkiaBackend :=
  .ok (st.draw_path_ path style false)

/-- `DrawingBackend::draw_circle`. -/
def SkiaBackend.draw_circle (st : SkiaBackend) (center : Int × Int) (radius : Nat)
    (style : BackendStyleData) (fill : Bool) : Except DrawingErrorKind SkiaBackend :=
  let paint := ((st.paint style.color).set_stroke_width
    (style.stroke_width : ℚ)).set_anti_alias true
  let paint := if fill then paint.set_style PaintStyle.Fill
    else paint.set_style PaintStyle.Stroke
  .ok (st.emit (CanvasOp.drawCircle center (radius : ℚ) paint))

/-- `DrawingBackend::fill_polygon`: same path construction, always filled. -/
def SkiaBackend.fill_polygon (st : SkiaBackend) (vert : List (Int × Int))
    (style : BackendStyleData) : Except DrawingErrorKind SkiaBackend :=
  .ok (st.draw_path_ vert style true)

/-- The `ImageInfo` `blit_bitmap` constructs: `i32` dimensions from the `u32`
arguments, RGBA8888, `AlphaType::Opaque`. -/
def blitImageInfo (iw ih : Nat) : ImageInfo :=
  ImageInfo.new (u32AsI32 iw, u32AsI32 ih) ColorType.RGBA8888 AlphaType.Opaque

/-- The row stride `blit_bitmap` declares: `iw * 4` in wrapping `u32`
arithmetic. -/
def blitRowBytes (iw : Nat) : Nat := iw * 4 % 2 ^ 32

/-- Modelled from the spec: the byte size a declared RGBA geometry requires,
`(height - 1) * rowBytes + width * 4` for positive dimensions (a nonpositive
dimension requires nothing). -/
def ImageInfo.requiredByteSize (info : ImageInfo) (rowBytes : Nat) : Int :=
  if info.width ≤ 0 ∨ info.height ≤ 0 then 0
  else (info.height - 1) * rowBytes + info.width * 4

/-- Modelled from the spec: skia's `images::raster_from_data` lives in the
graphics engine, outside this repository.  Per the spec it fails when the
engine "cannot construct an image from the supplied raw byte buffer (e.g.,
buffer too short for declared dimensions)": it returns `none` exactly when
the byte buffer is shorter than the declared geometry requires, and otherwise
wraps the bytes as an image. -/
def rasterFromData (info : ImageInfo) (data : List Nat) (rowBytes : Nat) :
    Option SkImage :=
  if (data.length : Int) < info.requiredByteSize rowBytes then none
  else some ⟨info, data, rowBytes⟩

/-- `DrawingBackend::blit_bitmap(pos, (iw, ih), src)`. -/
def SkiaBackend.blit_bitmap (st : SkiaBackend) (pos : Int × Int) (iw ih : Nat)
    (src : List Nat) : Except DrawingErrorKind SkiaBackend :=
  match rasterFromData (blitImageInfo iw ih) src (blitRowBytes iw) with
  | none => .error (DrawingErrorKind.DrawingError SkiaError.ImageFromRaster)
  | some img => .ok (st.emit (CanvasOp.drawImage img pos))

/-- One call through the adapter's public interface. -/
inductive AdapterCall where
  | set_blend_mode (m : Option BlendMode)
  | ensure_prepared
  | present
  | draw_pixel (point : Int × Int) (color : BackendColor)
  | draw_line (p q : Int × Int) (style : BackendStyleData)
  | draw_rect (upper_left bottom_right : Int × Int) (style : BackendStyleData)
      (fill : Bool)
  | draw_path (path : List (Int × Int)) (style : BackendStyleData)
  | draw_circle (center : Int × Int) (radius : Nat) (style : BackendStyleData)
      (fill : Bool)
  | fill_polygon (vert : List (Int × Int)) (style : BackendStyleData)
  | blit_bitmap (pos : Int × Int) (iw ih : Nat) (src : List Nat)
deriving DecidableEq

/-- The adapter state after a fallible call: on the error path the Rust
method has touched neither the adapter's fields nor the canvas. -/
def resultState (st : SkiaBackend) (r : Except DrawingErrorKind SkiaBackend) :
    SkiaBackend :=
  match r with
  | .ok st' => st'
  | .error _ => st

/-- Run one adapter call against a state. -/
def SkiaBackend.run (st : SkiaBackend) (c : AdapterCall) : SkiaBackend :=
  match c with
  | .set_blend_mode m => st.set_blend_mode m
  | .ensure_prepared => resultState st st.ensure_prepared
  | .present => resultState st st.present
  | .draw_pixel point color => resultState st (st.draw_pixel point color)
  | .draw_line p q style => resultState st (st.draw_line p q style)
  | .draw_rect ul br style fill => resultState st (st.draw_rect ul br style fill)
  | .draw_path path style => resultState st (st.draw_path path style)
  | .draw_circle c r style fill => resultState st (st.draw_circle c r style fill)
  | .fill_polygon vert style => resultState st (st.fill_polygon vert style)
  | .blit_bitmap pos iw ih src => resultState st (st.blit_bitmap pos iw ih src)

/-- Run a sequence of adapter calls, first to last. -/
def SkiaBackend.runCalls (st : SkiaBackend) (cs : List AdapterCall) : SkiaBackend :=
  cs.foldl SkiaBackend.run st

/-- C9: `ensure_prepared` and `present` always return success and perform no
canvas operation, leaving the canvas contents and the adapter state (width,
height, blend mode) unchanged. -/
theorem c9_lifecycle_noops (st : SkiaBackend) :
    st.ensure_prepared = Except.ok st ∧ st.present = Except.ok st :=
  ⟨rfl, rfl⟩

/-- C4: on an input sequence with zero points, `draw_path` and `fill_polygon`
build the empty no-op path, issue only a draw of that empty path, and return
success. -/
theorem c4_empty_path_noop (st : SkiaBackend) (style : BackendStyleData) :
    buildPath [] = []
    ∧ (∃ paint, st.draw_path [] style =
        Except.ok (st.emit (CanvasOp.drawPath [] paint)))
    ∧ (∃ paint, st.fill_polygon [] style =
        Except.ok (st.emit (CanvasOp.drawPath [] paint))) :=
  ⟨rfl, ⟨_, rfl⟩, ⟨_, rfl⟩⟩

/-- C3: on an input sequence of N ≥ 1 points, `draw_path` and `fill_polygon`
build the path by moving to the first point and issuing a line-to for each
subsequent point in input order, with no reordering, insertion or
deduplication. -/
theorem c3_path_input_order (st : SkiaBackend) (p : Int × Int)
    (rest : List (Int × Int)) (style : BackendStyleData) :
    buildPath (p :: rest) = PathVerb.moveTo p :: rest.map PathVerb.lineTo
    ∧ (∃ paint, st.draw_path (p :: rest) style =
        Except.ok (st.emit (CanvasOp.drawPath
          (PathVerb.moveTo p :: rest.map PathVerb.lineTo) paint)))
    ∧ (∃ paint, st.fill_polygon (p :: rest) style =
        Except.ok (st.emit (CanvasOp.drawPath
          (PathVerb.moveTo p :: rest.map PathVerb.lineTo) paint))) :=
  ⟨rfl, ⟨_, rfl⟩, ⟨_, rfl⟩⟩

/-- C5: for every style and point sequence, `fill_polygon` configures its
paint with the fill style regardless of the style object, while `draw_path`
on the same points configures the stroke style. -/
theorem c5_fill_polygon_forces_fill (st : SkiaBackend) (pts : List (Int × Int))
    (style : BackendStyleData) :
    (∃ paint, st.fill_polygon pts style =
        Except.ok (st.emit (CanvasOp.drawPath (buildPath pts) paint))
      ∧ paint.style = PaintStyle.Fill)
    ∧ (∃ paint, st.draw_path pts style =
        Except.ok (st.emit (CanvasOp.drawPath (buildPath pts) paint))
      ∧ paint.style = PaintStyle.Stroke) :=
  ⟨⟨_, rfl, rfl⟩, ⟨_, rfl, rfl⟩⟩

/-- C7 (amended): `draw_pixel` paints the single given point with the given
color and returns success, but its paint keeps the default anti-aliasing
setting (disabled): unlike the other draw operations, `draw_pixel` never
calls `set_anti_alias`. -/
theorem c7_draw_pixel_default_paint (st : SkiaBackend) (point : Int × Int)
    (color : BackendColor) :
    st.draw_pixel point color =
        Except.ok (st.emit (CanvasOp.drawPoint point (st.paint color)))
    ∧ (st.paint color).antiAlias = false := by
  refine ⟨rfl, ?_⟩
  cases hb : st.blendMode <;>
    simp [SkiaBackend.paint, hb, Paint.set_blend_mode, Paint.set_color,
      Paint.default, Color.from_argb]

/-- C7 counterexample: at a concrete input, the paint `draw_pixel` hands the
canvas has anti-aliasing disabled, refuting the claim that it is enabled. -/
theorem c7_counterexample_anti_alias_off :
    (SkiaBackend.new 4 4).draw_pixel (0, 0) ⟨1, (2, 3, 4)⟩ =
        Except.ok ((SkiaBackend.new 4 4).emit
          (CanvasOp.drawPoint (0, 0) ((SkiaBackend.new 4 4).paint ⟨1, (2, 3, 4)⟩)))
    ∧ ((SkiaBackend.new 4 4).paint ⟨1, (2, 3, 4)⟩).antiAlias = false
    ∧ ((SkiaBackend.new 4 4).paint ⟨1, (2, 3, 4)⟩).antiAlias ≠ true :=
  ⟨rfl, rfl, by decide⟩

/-- C6: after `set_blend_mode (some m)` every subsequently constructed paint
(e.g. for `draw_line`) carries blend mode `m`; after `set_blend_mode none`
paints keep the default compositing mode; at construction the blend mode is
`none`; and no call other than `set_blend_mode` changes the setting. -/
theorem c6_blend_mode_applies (w h : Nat) (st : SkiaBackend) (m : BlendMode)
    (color : BackendColor) (p q : Int × Int) (style : BackendStyleData) :
    (SkiaBackend.new w h).blendMode = none
    ∧ ((st.set_blend_mode (some m)).paint color).blendMode = some m
    ∧ ((st.set_blend_mode none).paint color).blendMode = none
    ∧ (∃ paint, (st.set_blend_mode (some m)).draw_line p q style =
          Except.ok ((st.set_blend_mode (some m)).emit (CanvasOp.drawLine p q paint))
        ∧ paint.blendMode = some m)
    ∧ (∃ paint, (st.set_blend_mode none).draw_line p q style =
          Except.ok ((st.set_blend_mode none).emit (CanvasOp.drawLine p q paint))
        ∧ paint.blendMode = none)
    ∧ (∀ c : AdapterCall, (∀ mo, c ≠ AdapterCall.set_blend_mode mo) →
        (st.run c).blendMode = st.blendMode) := by
  refine ⟨rfl, rfl, rfl, ⟨_, rfl, rfl⟩, ⟨_, rfl, rfl⟩, ?_⟩
  intro c hc
  cases c
  case set_blend_mode mo => exact absurd rfl (hc mo)
  case blit_bitmap pos iw ih src =>
    cases hr : rasterFromData (blitImageInfo iw ih) src (blitRowBytes iw) <;>
      simp [SkiaBackend.run, SkiaBackend.blit_bitmap, hr, resultState,
        SkiaBackend.emit]
  all_goals rfl

/-- `Int.log 2` is characterised by the binade bounds. -/
theorem int_log_two_eq {x : ℚ} {e : ℤ} (h0 : 0 < x) (h1 : (2 : ℚ) ^ e ≤ x)
    (h2 : x < (2 : ℚ) ^ (e + 1)) : Int.log 2 x = e := by
  have hb : 1 < (2 : ℕ) := one_lt_two
  have hcast : ((2 : ℕ) : ℚ) = (2 : ℚ) := by norm_num
  have hle : e ≤ Int.log 2 x := by
    rw [← Int.zpow_le_iff_le_log hb h0, hcast]
    exact h1
  have hlt : Int.log 2 x < e + 1 := by
    rw [← Int.lt_zpow_iff_log_lt hb h0, hcast]
    exact h2
  omega

/-- Rounding to nearest fixes integers. -/
theorem roundNearestEven_intCast (m : ℤ) : roundNearestEven (m : ℚ) = m := by
  unfold roundNearestEven
  rw [Int.floor_intCast, sub_self, if_pos (by norm_num)]

/-- Rounding to nearest preserves nonnegativity. -/
theorem roundNearestEven_nonneg {y : ℚ} (h : 0 ≤ y) : 0 ≤ roundNearestEven y := by
  have hf : (0 : ℤ) ≤ ⌊y⌋ := Int.floor_nonneg.mpr h
  unfold roundNearestEven
  split_ifs <;> omega

/-- Rounding to nearest moves the value up by at most a half. -/
theorem roundNearestEven_le (y : ℚ) : (roundNearestEven y : ℚ) ≤ y + 1 / 2 := by
  have hf : (⌊y⌋ : ℚ) ≤ y := Int.floor_le y
  unfold roundNearestEven
  split_ifs with h1 h2 h3
  · linarith
  · push_cast
    linarith
  · linarith
  · have h1' : (1 : ℚ) / 2 ≤ y - ⌊y⌋ := not_lt.mp h1
    push_cast
    linarith

theorem f64Round_zero : f64Round 0 = 0 := by
  unfold f64Round
  rw [if_pos rfl]

theorem f64Round_nonneg {x : ℚ} (hx : 0 ≤ x) : 0 ≤ f64Round x := by
  rcases eq_or_lt_of_le hx with h | h
  · rw [← h, f64Round_zero]
  · unfold f64Round
    rw [if_neg (ne_of_gt h), if_pos h]
    have hr : 0 ≤ roundNearestEven (x / 2 ^ (Int.log 2 x - 52)) :=
      roundNearestEven_nonneg (le_of_lt (div_pos h (zpow_pos (by norm_num) _)))
    exact mul_nonneg (by exact_mod_cast hr) (le_of_lt (zpow_pos (by norm_num) _))

/-- Binary64 rounding does not carry a value of `(0, 255]` above 255: 255
lies on the rounding grid of every binade the value can inhabit. -/
theorem f64Round_le_255 {x : ℚ} (h0 : 0 < x) (h255 : x ≤ 255) :
    f64Round x ≤ 255 := by
  set e := Int.log 2 x with he
  have he1 : (2 : ℚ) ^ e ≤ x := by
    have h := Int.zpow_log_le_self one_lt_two h0
    rw [he]
    exact_mod_cast h
  have he7 : e ≤ 7 := by
    by_contra hcon
    push_neg at hcon
    have h8 : (2 : ℚ) ^ (8 : ℤ) ≤ (2 : ℚ) ^ e := zpow_le_zpow_right₀ (by norm_num) (by omega)
    have h256 : (2 : ℚ) ^ (8 : ℤ) = 256 := by norm_num
    linarith
  unfold f64Round
  rw [if_neg (ne_of_gt h0), if_pos h0, ← he]
  set s : ℤ := e - 52 with hs
  have hps : (0 : ℚ) < 2 ^ s := zpow_pos (by norm_num) _
  have hk0 : (0 : ℤ) ≤ 52 - e := by omega
  have hM : ((255 * 2 ^ (52 - e).toNat : ℤ) : ℚ) = 255 / 2 ^ s := by
    push_cast
    rw [← zpow_natCast (2 : ℚ) (52 - e).toNat, Int.toNat_of_nonneg hk0,
      show (52 : ℤ) - e = -s by rw [hs]; ring, zpow_neg, div_eq_mul_inv]
  have hy : x / 2 ^ s ≤ 255 / 2 ^ s := (div_le_div_iff_of_pos_right hps).mpr h255
  have hn : (roundNearestEven (x / 2 ^ s) : ℚ) ≤ 255 / 2 ^ s + 1 / 2 :=
    le_trans (roundNearestEven_le _) (by linarith)
  have hnM : roundNearestEven (x / 2 ^ s) ≤ 255 * 2 ^ (52 - e).toNat := by
    have hq : (roundNearestEven (x / 2 ^ s) : ℚ) <
        ((255 * 2 ^ (52 - e).toNat : ℤ) : ℚ) + 1 := by
      rw [hM]
      linarith
    have hq' : roundNearestEven (x / 2 ^ s) < 255 * 2 ^ (52 - e).toNat + 1 := by
      exact_mod_cast hq
    omega
  calc (roundNearestEven (x / 2 ^ s) : ℚ) * 2 ^ s
      ≤ ((255 * 2 ^ (52 - e).toNat : ℤ) : ℚ) * 2 ^ s := by
        apply mul_le_mul_of_nonneg_right _ (le_of_lt hps)
        exact_mod_cast hnM
    _ = (255 / 2 ^ s) * 2 ^ s := by rw [hM]
    _ = 255 := div_mul_cancel₀ _ (ne_of_gt hps)

/-- A value that is an integer multiple of its binade's grid step is a
binary64 value: rounding fixes it. -/
theorem f64Round_eq_self (x : ℚ) (e m : ℤ) (h0 : 0 < x)
    (h1 : (2 : ℚ) ^ e ≤ x) (h2 : x < (2 : ℚ) ^ (e + 1))
    (hm : x = (m : ℚ) * 2 ^ (e - 52)) : f64Round x = x := by
  unfold f64Round
  rw [if_neg (ne_of_gt h0), if_pos h0, int_log_two_eq h0 h1 h2]
  have hps : (0 : ℚ) < 2 ^ (e - 52) := zpow_pos (by norm_num) _
  have hdiv : x / 2 ^ (e - 52) = (m : ℚ) := by
    rw [hm, mul_div_cancel_right₀ _ (ne_of_gt hps)]
  rw [hdiv, roundNearestEven_intCast, ← hm]

theorem f64Round_255 : f64Round (255 : ℚ) = 255 :=
  f64Round_eq_self 255 7 (255 * 2 ^ 45) (by norm_num) (by norm_num) (by norm_num)
    (by norm_num)

/-- The f64 product at the counterexample: `1 - 2 ^ (-56)` is within half an
ulp of 1, so binary64 rounds it up to exactly 1. -/
theorem f64Round_near_one : f64Round (1 - 1 / 2 ^ 56 : ℚ) = 1 := by
  have h0 : (0 : ℚ) < 1 - 1 / 2 ^ 56 := by norm_num
  have hlog : Int.log 2 (1 - 1 / 2 ^ 56 : ℚ) = -1 :=
    int_log_two_eq h0 (by norm_num) (by norm_num)
  unfold f64Round
  rw [if_neg (ne_of_gt h0), if_pos h0, hlog]
  have hy : ((1 - 1 / 2 ^ 56 : ℚ) / 2 ^ ((-1 : ℤ) - 52)) = 2 ^ 53 - 1 / 8 := by
    norm_num
  rw [hy]
  have hflr : ⌊(2 ^ 53 - 1 / 8 : ℚ)⌋ = 2 ^ 53 - 1 := by norm_num
  have hne : roundNearestEven (2 ^ 53 - 1 / 8 : ℚ) = 2 ^ 53 := by
    unfold roundNearestEven
    rw [hflr, if_neg (by push_cast; norm_num), if_pos (by push_cast; norm_num)]
    ring
  rw [hne]
  norm_num

/-- The program's alpha derivation, factored: the paint's alpha channel is
the truncating saturating cast of the rounded f64 product. -/
theorem paint_alpha_eq (st : SkiaBackend) (color : BackendColor) :
    (st.paint color).color.a = f64AsU8 (f64Round (color.alpha * 255)) := by
  cases hb : st.blendMode <;>
    simp [SkiaBackend.paint, hb, Paint.set_blend_mode, Paint.set_color,
      Paint.default, Color.from_argb]

/-- C1 (amended): for every color whose alpha lies in `[0, 1]`, the
paint-construction step derives the 8-bit alpha channel as
`floor(fl(alpha * 255))`, where `fl` is the IEEE binary64 rounding of the
f64 product `alpha * 255.0`; alpha 1 yields 255 and alpha 0 yields 0.  This
equals `floor(alpha * 255)` except when rounding the product crosses an
integer boundary. -/
theorem c1_alpha_rounded_floor (st : SkiaBackend) (color : BackendColor)
    (h0 : 0 ≤ color.alpha) (h1 : color.alpha ≤ 1) :
    (((st.paint color).color.a : Int) = ⌊f64Round (color.alpha * 255)⌋)
    ∧ (color.alpha = 1 → (st.paint color).color.a = 255)
    ∧ (color.alpha = 0 → (st.paint color).color.a = 0) := by
  have hnn : (0 : ℚ) ≤ color.alpha * 255 := by positivity
  have hfl_nn : (0 : ℚ) ≤ f64Round (color.alpha * 255) := f64Round_nonneg hnn
  have hfl_le : f64Round (color.alpha * 255) ≤ 255 := by
    rcases eq_or_lt_of_le hnn with hz | hp
    · rw [← hz, f64Round_zero]
      norm_num
    · exact f64Round_le_255 hp (by nlinarith)
  have hfl0 : (0 : Int) ≤ ⌊f64Round (color.alpha * 255)⌋ :=
    Int.floor_nonneg.mpr hfl_nn
  have hfl255 : ⌊f64Round (color.alpha * 255)⌋ ≤ 255 := by
    have := Int.floor_mono hfl_le
    simpa using this
  have main : ((st.paint color).color.a : Int) = ⌊f64Round (color.alpha * 255)⌋ := by
    rw [paint_alpha_eq]
    unfold f64AsU8
    rw [if_neg (not_lt.mpr hfl_nn)]
    have htn : Int.toNat ⌊f64Round (color.alpha * 255)⌋ ≤ 255 := by omega
    rw [min_eq_right htn]
    exact Int.toNat_of_nonneg hfl0
  refine ⟨main, ?_, ?_⟩
  · intro hα
    have h255 : ((st.paint color).color.a : Int) = 255 := by
      rw [main, hα, one_mul, f64Round_255]
      norm_num
    exact_mod_cast h255
  · intro hα
    have hz : ((st.paint color).color.a : Int) = 0 := by
      rw [main, hα, zero_mul, f64Round_zero]
      norm_num
    exact_mod_cast hz

/-- C1 witness: at alpha 1 the derived 8-bit alpha is 255. -/
theorem c1_alpha_rounded_floor_witness :
    ((((SkiaBackend.new 1 1).paint ⟨1, (0, 0, 0)⟩).color.a : Int)
        = ⌊f64Round ((1 : ℚ) * 255)⌋)
    ∧ ((1 : ℚ) = 1 → ((SkiaBackend.new 1 1).paint ⟨1, (0, 0, 0)⟩).color.a = 255)
    ∧ ((1 : ℚ) = 0 → ((SkiaBackend.new 1 1).paint ⟨1, (0, 0, 0)⟩).color.a = 0) :=
  c1_alpha_rounded_floor (SkiaBackend.new 1 1) ⟨1, (0, 0, 0)⟩ (by norm_num)
    (by norm_num)

/-- C1 counterexample: at the binary64 value nearest `1/255` (alpha =
`4521260802379792 / 2 ^ 60`, a 53-bit significand in the `2 ^ (-8)` binade,
inside `[0, 1]`), the f64 product `alpha * 255.0` is `1 - 2 ^ (-56)`, which
rounds up to exactly 1: the program derives alpha channel 1, while
`floor(alpha * 255) = 0`, refuting the claimed floor formula. -/
theorem c1_counterexample_product_rounds_up :
    ((0 : ℚ) ≤ (4521260802379792 : ℚ) / 2 ^ 60
      ∧ ((4521260802379792 : ℚ) / 2 ^ 60) ≤ 1)
    ∧ f64Round ((4521260802379792 : ℚ) / 2 ^ 60)
        = (4521260802379792 : ℚ) / 2 ^ 60
    ∧ (((SkiaBackend.new 1 1).paint
        ⟨(4521260802379792 : ℚ) / 2 ^ 60, (0, 0, 0)⟩).color.a : Int) = 1
    ∧ ⌊((4521260802379792 : ℚ) / 2 ^ 60) * 255⌋ = 0
    ∧ (((SkiaBackend.new 1 1).paint
        ⟨(4521260802379792 : ℚ) / 2 ^ 60, (0, 0, 0)⟩).color.a : Int)
      ≠ ⌊((4521260802379792 : ℚ) / 2 ^ 60) * 255⌋ := by
  have hprod : ((4521260802379792 : ℚ) / 2 ^ 60) * 255 = 1 - 1 / 2 ^ 56 := by
    norm_num
  have hrepr : f64Round ((4521260802379792 : ℚ) / 2 ^ 60)
      = (4521260802379792 : ℚ) / 2 ^ 60 :=
    f64Round_eq_self ((4521260802379792 : ℚ) / 2 ^ 60) (-8) 4521260802379792
      (by norm_num) (by norm_num) (by norm_num) (by norm_num)
  have hpaint : (((SkiaBackend.new 1 1).paint
      ⟨(4521260802379792 : ℚ) / 2 ^ 60, (0, 0, 0)⟩).color.a : Int) = 1 := by
    rw [paint_alpha_eq]
    show ((f64AsU8 (f64Round (((4521260802379792 : ℚ) / 2 ^ 60) * 255)) : Nat) : Int) = 1
    rw [hprod, f64Round_near_one]
    unfold f64AsU8
    norm_num
  have hfloor : ⌊((4521260802379792 : ℚ) / 2 ^ 60) * 255⌋ = 0 := by
    rw [hprod]
    norm_num
  exact ⟨⟨by norm_num, by norm_num⟩, hrepr, hpaint, hfloor, by
    rw [hpaint, hfloor]
    norm_num⟩

/-- C2: `blit_bitmap` returns the image-from-raster error and issues no
canvas call exactly when the raster-from-data facility fails on the supplied
bytes (e.g. when the buffer is shorter than `width * height * 4` for sane
dimensions); on success it draws the decoded image at the given position and
returns success. -/
theorem c2_blit_bitmap_error_iff (st : SkiaBackend) (pos : Int × Int)
    (iw ih : Nat) (src : List Nat) :
    (rasterFromData (blitImageInfo iw ih) src (blitRowBytes iw) = none →
        st.blit_bitmap pos iw ih src =
          Except.error (DrawingErrorKind.DrawingError SkiaError.ImageFromRaster)
        ∧ resultState st (st.blit_bitmap pos iw ih src) = st)
    ∧ (∀ img, rasterFromData (blitImageInfo iw ih) src (blitRowBytes iw) = some img →
        st.blit_bitmap pos iw ih src =
          Except.ok (st.emit (CanvasOp.drawImage img pos)))
    ∧ (1 ≤ ih → ih < 2 ^ 31 → iw * 4 < 2 ^ 32 → src.length < iw * ih * 4 →
        st.blit_bitmap pos iw ih src =
          Except.error (DrawingErrorKind.DrawingError SkiaError.ImageFromRaster)) := by
  refine ⟨?_, ?_, ?_⟩
  · intro hr
    simp [SkiaBackend.blit_bitmap, hr, resultState]
  · intro img hr
    simp [SkiaBackend.blit_bitmap, hr]
  · intro hih1 hih2 hiw4 hlen
    rcases Nat.eq_zero_or_pos iw with hiw0 | hiwpos
    · subst hiw0; omega
    have hinfo : blitImageInfo iw ih =
        ⟨(iw : Int), (ih : Int), ColorType.RGBA8888, AlphaType.Opaque⟩ := by
      simp only [blitImageInfo, ImageInfo.new, u32AsI32,
        Nat.mod_eq_of_lt (show iw < 2 ^ 32 by omega),
        Nat.mod_eq_of_lt (show ih < 2 ^ 32 by omega)]
      rw [if_pos (show iw < 2 ^ 31 by omega), if_pos (show ih < 2 ^ 31 by omega)]
    have hrow : blitRowBytes iw = iw * 4 := Nat.mod_eq_of_lt hiw4
    have hnone : rasterFromData (blitImageInfo iw ih) src (blitRowBytes iw) = none := by
      rw [hinfo, hrow]
      have hreq : ImageInfo.requiredByteSize
          ⟨(iw : Int), (ih : Int), ColorType.RGBA8888, AlphaType.Opaque⟩ (iw * 4) =
          ((ih : Int) - 1) * ((iw * 4 : Nat) : Int) + (iw : Int) * 4 := by
        unfold ImageInfo.requiredByteSize
        split
        · rename _ => hc
          exfalso
          simp only at hc
          omega
        · rfl
      have hlt : (src.length : Int) <
          ((ih : Int) - 1) * ((iw * 4 : Nat) : Int) + (iw : Int) * 4 := by
        have hlen' : (src.length : Int) < (iw : Int) * (ih : Int) * 4 := by
          exact_mod_cast hlen
        push_cast
        nlinarith [hlen']
      unfold rasterFromData
      rw [hreq, if_pos hlt]
    simp [SkiaBackend.blit_bitmap, hnone]

/-- Each adapter call leaves the stored width and height unchanged. -/
theorem run_preserves_size (st : SkiaBackend) (c : AdapterCall) :
    (st.run c).width = st.width ∧ (st.run c).height = st.height := by
  cases c
  case blit_bitmap pos iw ih src =>
    cases hr : rasterFromData (blitImageInfo iw ih) src (blitRowBytes iw) <;>
      simp [SkiaBackend.run, SkiaBackend.blit_bitmap, hr, resultState,
        SkiaBackend.emit]
  all_goals exact ⟨rfl, rfl⟩

/-- C8: `get_size` returns exactly the (width, height) pair passed at
construction, and its result is unchanged by any sequence of draw or
`set_blend_mode` calls performed on the adapter after construction. -/
theorem c8_get_size_stable (w h : Nat) (calls : List AdapterCall) :
    (SkiaBackend.runCalls (SkiaBackend.new w h) calls).get_size = (w, h) := by
  have main : ∀ (cs : List AdapterCall) (st : SkiaBackend),
      (st.runCalls cs).width = st.width ∧ (st.runCalls cs).height = st.height := by
    intro cs
    induction cs with
    | nil => intro st; exact ⟨rfl, rfl⟩
    | cons c cs ih =>
      intro st
      have h1 := run_preserves_size st c
      have h2 := ih (st.run c)
      exact ⟨h2.1.trans h1.1, h2.2.trans h1.2⟩
  have hm := main calls (SkiaBackend.new w h)
  show ((SkiaBackend.runCalls (SkiaBackend.new w h) calls).width,
    (SkiaBackend.runCalls (SkiaBackend.new w h) calls).height) = (w, h)
  rw [hm.1, hm.2]
  rfl

/-- C10 (amended): `blit_bitmap` always declares the image's alpha type as
`Opaque`; the row stride it declares is `width * 4` in wrapping `u32`
arithmetic, which equals `width * 4` whenever that product fits a `u32`
(`width * 4 < 2 ^ 32`), and the successfully decoded image records exactly
that alpha type and stride. -/
theorem c10_blit_declares (iw ih : Nat) (st : SkiaBackend) (pos : Int × Int)
    (src : List Nat) (img : SkImage)
    (h4 : iw * 4 < 2 ^ 32)
    (himg : rasterFromData (blitImageInfo iw ih) src (blitRowBytes iw) = some img) :
    (blitImageInfo iw ih).alphaType = AlphaType.Opaque
    ∧ blitRowBytes iw = iw * 4
    ∧ st.blit_bitmap pos iw ih src = Except.ok (st.emit (CanvasOp.drawImage img pos))
    ∧ img.info.alphaType = AlphaType.Opaque
    ∧ img.rowBytes = iw * 4 := by
  have himg' : img = ⟨blitImageInfo iw ih, src, blitRowBytes iw⟩ := by
    unfold rasterFromData at himg
    split at himg
    · exact absurd himg (by simp)
    · exact (Option.some.inj himg).symm
  refine ⟨rfl, Nat.mod_eq_of_lt h4, ?_, ?_, ?_⟩
  · simp [SkiaBackend.blit_bitmap, himg]
  · rw [himg']
    rfl
  · rw [himg']
    exact Nat.mod_eq_of_lt h4

/-- C10 witness: a 2×1 opaque RGBA blit with an exactly sized 8-byte buffer
succeeds and declares stride 8 and alpha type `Opaque`. -/
theorem c10_blit_declares_witness :
    (blitImageInfo 2 1).alphaType = AlphaType.Opaque
    ∧ blitRowBytes 2 = 2 * 4
    ∧ (SkiaBackend.new 3 3).blit_bitmap (0, 0) 2 1 [0, 0, 0, 0, 0, 0, 0, 0] =
        Except.ok ((SkiaBackend.new 3 3).emit (CanvasOp.drawImage
          ⟨blitImageInfo 2 1, [0, 0, 0, 0, 0, 0, 0, 0], blitRowBytes 2⟩ (0, 0)))
    ∧ (⟨blitImageInfo 2 1, [0, 0, 0, 0, 0, 0, 0, 0], blitRowBytes 2⟩
        : SkImage).info.alphaType = AlphaType.Opaque
    ∧ (⟨blitImageInfo 2 1, [0, 0, 0, 0, 0, 0, 0, 0], blitRowBytes 2⟩
        : SkImage).rowBytes = 2 * 4 :=
  c10_blit_declares 2 1 (SkiaBackend.new 3 3) (0, 0) [0, 0, 0, 0, 0, 0, 0, 0]
    ⟨blitImageInfo 2 1, [0, 0, 0, 0, 0, 0, 0, 0], blitRowBytes 2⟩
    (by norm_num) (by rfl)

/-- C10 counterexample: at width `2 ^ 30` the declared row stride wraps to 0
in `u32` arithmetic, refuting the claim that it is always `width * 4`. -/
theorem c10_counterexample_row_stride_wraps :
    blitRowBytes (2 ^ 30) = 0 ∧ 2 ^ 30 * 4 ≠ 0 := by
  constructor
  · norm_num [blitRowBytes]
  · norm_num

end PlottersSkia
